import Mathlib

/-!
Verification of the diagnostic projection engine of `SyntaxCheckPlugin.py`
(sublime-rust).  The Python source is shallowly embedded: each Python
function becomes a Lean definition with the same name (module-level
underscore names kept where Lean allows), mutable state becomes explicit
state passing (`St`), raised exceptions become `Except String`, and the
Sublime editor API is modelled by an explicit environment (`Env`):

* views are identified by the file they display (one view per file);
  `window.find_open_file` is membership in `Env.openFiles`
  (`os.path.realpath` is modelled as the identity on the already
  normalised paths used throughout);
* a Sublime text point is modelled as the (row, column) pair it encodes,
  so `view.text_point r c = (r, c)` and `view.rowcol` is the identity;
  `view.size()` (the end-of-buffer point) is `Env.viewEnd`;
* `sublime.Region(a, b)` is the pair of its two points (for the regions
  built by this plugin the first point is `begin()` and the second
  `end()`);
* phantom HTML content is modelled by the instantiated parameters of the
  constant `msg_template` (its fixed CSS/HTML skeleton carries no data);
* `print` output is collected as `Event.printLog` events.

Integers coming from the JSON diagnostics (line/column numbers, process
return codes) are Python arbitrary-precision integers and are modelled
as `Int`.
-/

/-- `sublime.Region`, as the pair of its two `(row, column)` points. -/
abbrev Region : Type := (Int × Int) × (Int × Int)

/-- The Sublime settings read by the plugin (`settings.get` keys
`rust_syntax_hide_warnings`, `rust_syntax_error_color`,
`rust_syntax_warning_color`, `rust_syntax_checking_include_tests`). -/
structure Settings where
  hide_warnings : Bool
  error_color : String
  warning_color : String
  include_tests : Bool
deriving DecidableEq

/-- The editor environment: which files are open in the window, which
view triggered the check, and each view's end-of-buffer point. -/
structure Env where
  openFiles : List String
  viewOfInterest : String
  viewEnd : String → Int × Int

/-- The non-recursive fields of a rustc JSON span. -/
structure SpanData where
  file_name : String
  line_start : Int
  column_start : Int
  line_end : Int
  column_end : Int
  is_primary : Bool
  label : Option String
  suggested_replacement : Option String
deriving DecidableEq

/-- A rustc JSON span.  The wire format nests the parent span as
`expansion: {span: <Span>} | null`; the singleton `{span: ...}` wrapper
is flattened into the `Option`. -/
inductive Span : Type where
  | mk (data : SpanData) (expansion : Option Span)

/-- The plain fields of a span. -/
def Span.data : Span → SpanData
  | .mk d _ => d

/-- The macro-expansion parent of a span, when present. -/
def Span.expansion : Span → Option Span
  | .mk _ e => e

/-- The `code: {code, explanation} | null` field of a diagnostic. -/
structure DiagCode where
  code : String
  explanation : Option String
deriving DecidableEq

/-- A rustc JSON diagnostic record (`info` in the Python source).  The
`rendered` field is the pretty-printed text (JSON `null` modelled as
`""`; it is only ever read for suggestion spans, which carry it). -/
inductive Diag : Type where
  | mk (level : String) (message : String) (code : Option DiagCode)
       (spans : List Span) (children : List Diag) (rendered : String)

/-- `info['level']`. -/
def Diag.level : Diag → String
  | .mk l _ _ _ _ _ => l

/-- `info['message']`. -/
def Diag.message : Diag → String
  | .mk _ m _ _ _ _ => m

/-- `info['code']`. -/
def Diag.code : Diag → Option DiagCode
  | .mk _ _ c _ _ _ => c

/-- `info['spans']`. -/
def Diag.spans : Diag → List Span
  | .mk _ _ _ s _ _ => s

/-- `info['children']`. -/
def Diag.children : Diag → List Diag
  | .mk _ _ _ _ c _ => c

/-- `info['rendered']`. -/
def Diag.rendered : Diag → String
  | .mk _ _ _ _ _ r => r

/-- Python truthiness of an optional string (`None` and `''` are falsy). -/
def truthyS : Option String → Bool
  | none => false
  | some s => s != ""

/-- Python `s.startswith(p)`. -/
def pyStartswith (s p : String) : Bool :=
  p.data.isPrefixOf s.data

/-- Python `s.endswith(p)`. -/
def pyEndswith (s p : String) : Bool :=
  p.data.isSuffixOf s.data

/-- Substring search on the underlying characters: `pat` occurs in
`hay` at some position. -/
def charsContain (hay pat : List Char) : Bool :=
  pat.isPrefixOf hay ||
    match hay with
    | [] => false
    | _ :: t => charsContain t pat

/-- Python `p in s` (substring containment). -/
def pyContains (s p : String) : Bool :=
  charsContain s.data p.data

/-- Python `'macros>' in f`. -/
def isMacroFile (f : String) : Bool :=
  pyContains f "macros>"

/-- `find_span_r` (lines 437-445): follow the `expansion` chain of a
macro-expansion span until a span with a real file name is reached;
`none` if the chain ends while still inside a macro. -/
def find_span_r : Span → Option Span
  | .mk d ex =>
    if isMacroFile d.file_name then
      match ex with
      | some t => find_span_r t
      | none => none
    else
      some (.mk d ex)

/-- The span-resolution step of the span loop (lines 433-448): spans
from `<...macros>` pseudo-files are pushed through `find_span_r`, all
other spans are used as they are. -/
def resolve_span (s : Span) : Option Span :=
  if isMacroFile s.data.file_name then find_span_r s else some s

/-- `find_span_r`, instrumented with the number of `expansion` hops it
follows. -/
def find_span_r_hops : Span → Option Span × Nat
  | .mk d ex =>
    if isMacroFile d.file_name then
      match ex with
      | some t =>
        let r := find_span_r_hops t
        (r.1, r.2 + 1)
      | none => (none, 0)
    else
      (some (.mk d ex), 0)

/-- `resolve_span`, instrumented with the number of hops performed. -/
def resolve_span_hops (s : Span) : Option Span × Nat :=
  if isMacroFile s.data.file_name then find_span_r_hops s else (some s, 0)

/-- Follow exactly `n` `expansion` hops from a span (`none` if the
chain is shorter). -/
def iterExp : Nat → Span → Option Span
  | 0, s => some s
  | n + 1, s =>
    match s.expansion with
    | some t => iterExp n t
    | none => none

/-- The instantiated parameters of the `msg_template` phantom HTML
(its fixed CSS/HTML skeleton carries no data and is omitted). -/
structure PhantomContent where
  cls : String
  level : String
  msg : String
  extra : String
  base_color : String
deriving DecidableEq

/-- An observable effect of the aggregator: a phantom placed in a view,
or a line written with `print`. -/
inductive Event : Type where
  | phantom (file : String) (region : Region) (content : PhantomContent)
  | printLog (line : String)
deriving DecidableEq

/-- The mutable state threaded through `add_error_phantoms`:
`self.this_view_found`, the `regions_by_view` accumulator (flattened to
the ordered list of `(view, scope, region)` insertions), the emitted
events, and the `parent_info` dict (`none` models the empty dict `{}`,
`some (view, region)` a dict holding both keys). -/
structure St where
  thisViewFound : Bool
  regionsByView : List (String × String × Region)
  events : List Event
  parent : Option (String × Region)
deriving DecidableEq

/-- `window.find_open_file(os.path.realpath(path))`: the view showing
`path`, if that file is open (views are identified with their file). -/
def find_open_file (env : Env) (path : String) : Option String :=
  if env.openFiles.contains path then some path else none

/-- One character of the message-formatting chain
`html.escape(message, quote=False).replace('\n', '<br>').replace(' ', '&nbsp;')`.
`html.escape` rewrites `&` first, then `<`, then `>`, and none of the
replacement texts is rewritten by a later stage, so the sequential
`replace` chain equals this single pass over the original characters. -/
def escapeChar (c : Char) : List Char :=
  if c = '&' then "&amp;".data
  else if c = '<' then "&lt;".data
  else if c = '>' then "&gt;".data
  else if c = '\n' then "<br>".data
  else if c = ' ' then "&nbsp;".data
  else [c]

/-- The message-formatting chain of `add_message` (lines 375-376). -/
def formatMessage (s : String) : String :=
  ⟨(s.data.map escapeChar).flatten⟩

/-- The region built from a resolved span (lines 453-456):
`Region(view.text_point(line_start-1, column_start-1),
view.text_point(line_end-1, column_end-1))`. -/
def spanRegion (d : SpanData) : Region :=
  ((d.line_start - 1, d.column_start - 1), (d.line_end - 1, d.column_end - 1))

/-- `report_silent_message` (lines 404-406). -/
def report_silent_message (info : Diag) (path : String) (message : String) (st : St) : St :=
  { st with events := st.events ++
      [.printLog ("rust: " ++ path),
       .printLog ("[" ++ info.level ++ "]: " ++ message)] }

/-- `add_message` (lines 341-388).  `base_color` is the colour chosen
at the top of `add_error_phantoms` from the settings and the record's
level. -/
def add_message (env : Env) (info : Diag) (base_color : String) (view : String)
    (region : Region) (message : String) (extra : String) (st : St) : St :=
  let found := st.thisViewFound || view == env.viewOfInterest
  let is_error := info.level == "error"
  let scope := if is_error then "invalid" else "info"
  let regs := st.regionsByView ++ [(view, scope, region)]
  -- LAYOUT_BELOW places the phantom under the first line of a
  -- multi-line region; move it under the last line (lines 358-365).
  let region2 := if region.1.1 = region.2.1 then region else ((region.2.1, 0), region.2)
  let cls := if info.level == "error" then "rust-error" else "rust-additional"
  { st with
      thisViewFound := found,
      regionsByView := regs,
      events := st.events ++
        [.phantom view region2 ⟨cls, info.level, formatMessage message, extra, base_color⟩] }

/-- `add_primary_message` (lines 390-402): records the anchor in
`parent_info` and attaches the error-index link when the code has an
explanation. -/
def add_primary_message (env : Env) (info : Diag) (base_color : String) (view : String)
    (region : Region) (message : String) (st : St) : St :=
  let st1 := { st with parent := some (view, region) }
  let extra :=
    match info.code with
    | some c =>
      if truthyS c.explanation then
        " <a href=\"https://doc.rust-lang.org/error-index.html#" ++ c.code ++ "\">?</a>"
      else ""
    | none => ""
  add_message env info base_color view region message extra st1

/-- The zero-span branch of `add_error_phantoms` (lines 408-429). -/
def spanlessStep (env : Env) (info : Diag) (base_color : String)
    (target_src_path : String) (st : St) : St :=
  match st.parent with
  | some (pv, pr) => add_primary_message env info base_color pv pr info.message st
  | none =>
    let imsg := info.message
    if pyStartswith imsg "aborting due to" || pyStartswith imsg "cannot continue" then st
    else
      match find_open_file env target_src_path with
      | some view =>
        -- Place at bottom of file for lack of anywhere better.
        add_primary_message env info base_color view
          (env.viewEnd view, env.viewEnd view) imsg st
      | none => report_silent_message info target_src_path imsg st

/-- The body of the span loop of `add_error_phantoms` (lines 431-483)
for one span.  An unresolvable macro-expansion chain is a `continue`
(the state is returned unchanged); a span with a falsy label that is
not primary raises `ValueError` (lines 466-469). -/
def processSpan (env : Env) (info : Diag) (base_color : String) (span : Span)
    (st : St) : Except String St :=
  let is_primary := span.data.is_primary
  match resolve_span span with
  | none => .ok st
  | some sp =>
    match find_open_file env sp.data.file_name with
    | some view =>
      let region := spanRegion sp.data
      let st1 :=
        if truthyS sp.data.label then
          add_message env info base_color view region ((sp.data.label).getD "") "" st
        else st
      if !truthyS sp.data.label && !is_primary then
        .error "Unexpected span with no label"
      else
        let st2 :=
          if is_primary then
            add_primary_message env info base_color view region info.message st1
          else st1
        let st3 :=
          if truthyS sp.data.suggested_replacement then
            add_message env info base_color view region info.rendered "" st2
          else st2
        .ok st3
    | none =>
      -- File is currently not open.
      let st1 :=
        if is_primary then report_silent_message info sp.data.file_name info.message st
        else st
      let st2 :=
        if truthyS sp.data.label then
          report_silent_message info sp.data.file_name ((sp.data.label).getD "") st1
        else st1
      .ok st2

/-- The span loop of `add_error_phantoms`, over the whole span list. -/
def processSpans (env : Env) (info : Diag) (base_color : String) :
    List Span → St → Except String St
  | [], st => .ok st
  | s :: rest, st => do
    let st1 ← processSpan env info base_color s st
    processSpans env info base_color rest st1

mutual

/-- `add_error_phantoms` (lines 274-487): severity filter, zero-span
branch, span loop, then recursion into the children. -/
def add_error_phantoms (env : Env) (settings : Settings) (target_src_path : String)
    (info : Diag) (st : St) : Except String St :=
  match info with
  | .mk level message code spans children rendered =>
    -- Include "notes" tied to errors, even if warnings are disabled.
    if level != "error" && settings.hide_warnings && st.parent == none then
      .ok st
    else
      let info' : Diag := .mk level message code spans children rendered
      let base_color := if level == "error" then settings.error_color else settings.warning_color
      let st1 := if spans.isEmpty then spanlessStep env info' base_color target_src_path st else st
      do
        let st2 ← processSpans env info' base_color spans st1
        processChildren env settings target_src_path children st2
termination_by structural info

/-- The `for child in info['children']` loop of `add_error_phantoms`. -/
def processChildren (env : Env) (settings : Settings) (target_src_path : String)
    (cs : List Diag) (st : St) : Except String St :=
  match cs with
  | [] => .ok st
  | c :: rest => do
    let st1 ← add_error_phantoms env settings target_src_path c st
    processChildren env settings target_src_path rest st1
termination_by structural cs

end

/-! ## Diagnostic fetcher (`run_cargo`, lines 89-117) -/

/-- The line filter of `run_cargo` (line 110): a line is kept iff it is
non-empty and its first character is `{`. -/
def isRecordLine (line : String) : Bool :=
  !(line == "" || line.front != '{')

/-- The parse loop of `run_cargo` (lines 108-112), over the lines of
the process output.  `jloads` models `json.loads`; a parse failure on a
kept line is a raised exception, which aborts the fetch. -/
def parse_lines {α : Type} (jloads : String → Except String α) :
    List String → Except String (List α)
  | [] => .ok []
  | l :: ls =>
    if isRecordLine l then do
      let j ← jloads l
      let rest ← parse_lines jloads ls
      .ok (j :: rest)
    else parse_lines jloads ls

/-- Python `output.split('\n')` on the character list, with `acc`
the (reversed) characters of the current line. -/
def pySplitLinesGo (acc : List Char) : List Char → List String
  | [] => [⟨acc.reverse⟩]
  | c :: cs =>
    if c = '\n' then ⟨acc.reverse⟩ :: pySplitLinesGo [] cs
    else pySplitLinesGo (c :: acc) cs

/-- Python `output.split('\n')`. -/
def pySplitLines (output : String) : List String :=
  pySplitLinesGo [] output.data

/-- `run_cargo` after the subprocess call (lines 108-117): parse the
output, and flag the silent `Failed to run` log when nothing parsed and
the process exited non-zero.  Returns the parsed records together with
the logged-failure flag. -/
def run_cargo_parse {α : Type} (jloads : String → Except String α)
    (output : String) (returncode : Int) : Except String (List α × Bool) := do
  let result ← parse_lines jloads (pySplitLines output)
  .ok (result, result.isEmpty && returncode != 0)

/-- The argument list built by `get_rustc_messages` (lines 129-134):
`--test` is appended when tests are included and the target arguments
do not already contain `--test` (Python substring test). -/
def rustc_args (include_tests : Bool) (target_args : String) : List String :=
  let args := ["rustc", target_args, "--", "-Zno-trans", "-Zunstable-options",
               "--error-format=json"]
  if include_tests && !pyContains target_args "--test" then
    args ++ ["--test"]
  else args

/-- One `(target_src, target_args)` pair yielded by `determine_targets`. -/
structure TargetEntry where
  src : String
  args : String
deriving DecidableEq

/-- The `for info in infos` loop of `on_post_save_async` (lines 74-76):
each top-level record is processed with a fresh empty `parent_info`
dict. -/
def processInfos (env : Env) (settings : Settings) (target_src_path : String)
    (infos : List Diag) (st : St) : Except String St :=
  match infos with
  | [] => .ok st
  | i :: rest => do
    let st1 ← add_error_phantoms env settings target_src_path i { st with parent := none }
    processInfos env settings target_src_path rest st1

/-- The target loop of `on_post_save_async` (lines 72-78) together with
the lazy generator `get_rustc_messages` (lines 119-135): targets are
fetched one at a time, and the loop breaks as soon as
`self.this_view_found` is set.  `fetch` models `run_cargo`; the first
component of the result is the list of targets actually fetched, in
order. -/
def checkLoop (env : Env) (settings : Settings) (fetch : List String → List Diag)
    (targets : List TargetEntry) (st : St) : Except String (List TargetEntry × St) :=
  match targets with
  | [] => .ok ([], st)
  | t :: rest => do
    let infos := fetch (rustc_args settings.include_tests t.args)
    let st1 ← processInfos env settings t.src infos st
    if st1.thisViewFound then .ok ([t], st1)
    else do
      let r ← checkLoop env settings fetch rest st1
      .ok (t :: r.1, r.2)

/-! ## Target resolver (`determine_targets` helpers, lines 178-266)

Absolute file paths are modelled as their list of components (the paths
handled here are normalised by `os.path.normpath`), so `os.path.dirname`
is `List.dropLast` and the filesystem root is `[]`. -/

/-- One entry of `package['targets']` from `cargo metadata`. -/
structure Target where
  kind : List String
  name : String
  src_path : List String
deriving DecidableEq

/-- `(src_path, command-line argument)` as returned by `_target_to_args`. -/
abbrev TargetArgs : Type := List String × String

/-- `_target_to_args` (lines 196-223): `.ok none` is the `None` return
for `custom-build`, `.error` the `IndexError` on an empty kind list or
the `ValueError(kind)` on an unknown kind. -/
def _target_to_args (target : Target) : Except String (Option TargetArgs) :=
  match target.kind with
  | [] => .error "IndexError"
  | kind :: _ =>
    if ["lib", "rlib", "dylib", "staticlib", "proc-macro"].contains kind then
      .ok (some (target.src_path, "--lib"))
    else if ["bin", "test", "example", "bench"].contains kind then
      .ok (some (target.src_path, "--" ++ kind ++ " " ++ target.name))
    else if kind == "custom-build" then
      .ok none
    else
      .error kind

/-- One iteration of the `while` loop of `_targets_longest_matches`
(lines 248-257): scan every target whose `src_path` directory is
`path_match`, collecting `(result, found, found_bin, found_lib)`. -/
def scanLevel (targets : List Target) (path_match : List String) :
    Except String (List TargetArgs × Bool × Bool × Bool) :=
  match targets with
  | [] => .ok ([], false, false, false)
  | t :: ts =>
    if t.src_path.dropLast = path_match then
      match _target_to_args t with
      | .error e => .error e
      | .ok none => scanLevel ts path_match
      | .ok (some args) => do
        let (r, _, fb, fl) ← scanLevel ts path_match
        .ok (args :: r, true,
             fb || pyStartswith args.2 "--bin",
             fl || pyStartswith args.2 "--lib")
    else scanLevel ts path_match

/-- The `while not found` loop of `_targets_longest_matches`
(lines 247-262): scan the current level; stop if anything was found or
the root was reached, otherwise move to the parent directory. -/
def longestLoop (targets : List Target) (path_match : List String) :
    Except String (List TargetArgs × Bool × Bool) := do
  let (res, found, fb, fl) ← scanLevel targets path_match
  if found then .ok (res, fb, fl)
  else if path_match = [] then .ok (res, fb, fl)
  else longestLoop targets path_match.dropLast
termination_by path_match.length
decreasing_by
  have hne : path_match ≠ [] := by assumption
  have hl : 0 < path_match.length := List.length_pos.mpr hne
  simp [List.length_dropLast]
  omega

/-- `_targets_longest_matches` (lines 234-266). -/
def _targets_longest_matches (targets : List Target) (file_name : List String) :
    Except String (List TargetArgs) := do
  let (res, fb, fl) ← longestLoop targets file_name.dropLast
  -- If the match is both --bin and --lib in the same directory, just do --lib.
  .ok (if fb && fl then res.filter (fun x => !(pyStartswith x.2 "--bin")) else res)

/-- `dirname` applied `k` times, the `k`-th ancestor level visited by
the `while` loop. -/
def levelDir (path : List String) : Nat → List String
  | 0 => path
  | k + 1 => (levelDir path k).dropLast

/-! ## Manual target configuration (`_targets_manual_config`, lines 178-194)

This helper compares plain path strings (`str.startswith`,
`os.path.join`), so here paths stay `String`s. -/

/-- `os.path.join(a, b)` for a relative second component. -/
def pjoin (a b : String) : String :=
  if a == "" then b
  else if pyEndswith a "/" then a ++ b
  else a ++ "/" ++ b

/-- One entry of the `projects` setting: the project root and the
`targets` mapping (association list in dict order). -/
structure Project where
  root : String
  targets : List (String × String)
deriving DecidableEq

/-- `_targets_manual_config` (lines 178-194): for each configured
project whose `<root>/src` string is a prefix of the file name, return
the exact-match target, else the `_default` target when present. -/
def _targets_manual_config (projects : List Project) (file_name : String) :
    Option (List (String × String)) :=
  match projects with
  | [] => none
  | p :: ps =>
    let src_root := pjoin p.root "src"
    if pyStartswith file_name src_root then
      match p.targets.find? (fun tc => file_name == pjoin src_root tc.1) with
      | some (tfile, tcmd) => some [(tfile, tcmd)]
      | none =>
        let target := ((p.targets.find? (fun tc => tc.1 == "_default")).map (·.2)).getD ""
        if target != "" then some [("", target)]
        else _targets_manual_config ps file_name
    else _targets_manual_config ps file_name

/-! ## Sample data for concrete runs -/

/-- A window with only `main.rs` open, `main.rs` being the saved view. -/
def env0 : Env := ⟨["main.rs"], "main.rs", fun _ => (0, 0)⟩

/-- Default-like settings: warnings shown, tests excluded. -/
def cfg0 : Settings := ⟨false, "red", "yellow", false⟩

/-- Settings with `rust_syntax_hide_warnings` enabled. -/
def cfgHide : Settings := ⟨true, "red", "yellow", false⟩

/-- The state at the start of a check run. -/
def st0 : St := ⟨false, [], [], none⟩

/-- A span in a real file. -/
def spanReal : Span := .mk ⟨"main.rs", 5, 1, 5, 10, false, some "lbl", none⟩ none

/-- A macro-expansion span whose chain reaches `spanReal` in one hop. -/
def spanMac1 : Span := .mk ⟨"<println macros>", 1, 1, 1, 2, true, none, none⟩ (some spanReal)

/-- A macro-expansion span whose chain dead-ends (no expansion). -/
def spanDead : Span := .mk ⟨"<println macros>", 1, 1, 1, 2, true, none, none⟩ none

/-- A labelled secondary span in the open file `main.rs`. -/
def spanSib : Span := .mk ⟨"main.rs", 2, 3, 2, 8, false, some "sib", none⟩ none

/-- An error record whose spans are the dead macro span and `spanSib`. -/
def diagMacro : Diag := .mk "error" "boom" none [spanDead, spanSib] [] ""

/-- A spanless, childless error record. -/
def diagErr : Diag := .mk "error" "boom" none [] [] ""

/-- A non-primary span with no label and no suggestion, in the open file. -/
def spanNoLbl : Span := .mk ⟨"main.rs", 1, 1, 1, 2, false, none, none⟩ none

/-- A non-primary span with no label but with a suggested replacement. -/
def spanSugg : Span := .mk ⟨"main.rs", 1, 1, 1, 2, false, none, some "fix"⟩ none

/-- An error record whose only span is `spanSugg`. -/
def diagSugg : Diag := .mk "error" "boom" none [spanSugg] [] "rendered"

/-- A spanless, childless warning record with message `w`. -/
def diagWarn : Diag := .mk "warning" "w" none [] [] ""

/-- A state whose `parent_info` anchor is already set. -/
def stAnchored : St := ⟨false, [], [], some ("main.rs", ((0, 0), (0, 0)))⟩

/-- A primary unlabelled span in the unopened file `un.rs`. -/
def spanUnopened : Span := .mk ⟨"un.rs", 1, 1, 1, 2, true, none, none⟩ none

/-- A top-level error in an unopened file with a spanless warning child. -/
def diagHidden : Diag :=
  .mk "error" "boom" none [spanUnopened] [.mk "warning" "w" none [] [] ""] ""

/-- An error record carrying only the labelled span `spanSib`. -/
def diagFound : Diag := .mk "error" "boom" none [spanSib] [] ""

/-- A fetch stub: every invocation reports `diagFound`. -/
def fetchW : List String → List Diag := fun _ => [diagFound]

/-- A first target entry, rooted at the open file. -/
def tgt1 : TargetEntry := ⟨"main.rs", "--lib"⟩

/-- A second target entry that must never be fetched. -/
def tgt2 : TargetEntry := ⟨"other.rs", "--bin x"⟩

/-- A `json.loads` stub that accepts every line verbatim. -/
def jloadsW : String → Except String String := fun l => .ok l

/-- A manual project configuration with root `/p` and only a
`_default` target. -/
def projX : Project := ⟨"/p", [("_default", "--bin x")]⟩

/-- A binary Cargo target in `/p/src`. -/
def tgtBin : Target := ⟨["bin"], "main", ["p", "src", "main.rs"]⟩

/-- A library Cargo target in `/p/src`. -/
def tgtLib : Target := ⟨["lib"], "helper", ["p", "src", "helper.rs"]⟩

/-! ## Theorems -/

theorem find_span_r_hops_fst : ∀ (s : Span), (find_span_r_hops s).1 = find_span_r s
  | .mk d ex => by
    cases ex with
    | none =>
      simp only [find_span_r_hops, find_span_r]
      split <;> simp
    | some t =>
      have ih := find_span_r_hops_fst t
      simp only [find_span_r_hops, find_span_r]
      split <;> simp_all

/-- A span whose chain is everywhere inside macro files resolves to
`none`. -/
theorem find_span_r_none_of_all_macro :
    ∀ (s : Span),
      (∀ n u, iterExp n s = some u → isMacroFile u.data.file_name = true) →
      find_span_r s = none
  | .mk d ex, h => by
    have hm : isMacroFile d.file_name = true := by
      have h0 := h 0 (.mk d ex) rfl
      simpa [Span.data] using h0
    cases ex with
    | none => simp [find_span_r, hm]
    | some t =>
      have ih := find_span_r_none_of_all_macro t (fun n u hn => h (n + 1) u (by
        simpa [iterExp, Span.expansion] using hn))
      simp [find_span_r, hm, ih]

/-- A chain that stays inside macro files for the first `N` spans and
reaches a real-file span `t` after exactly `N` hops makes
`find_span_r_hops` return `(some t, N)`. -/
theorem find_span_r_hops_of_chain :
    ∀ (N : Nat) (s t : Span),
      iterExp N s = some t →
      isMacroFile t.data.file_name = false →
      (∀ m u, m < N → iterExp m s = some u → isMacroFile u.data.file_name = true) →
      find_span_r_hops s = (some t, N) := by
  intro N
  induction N with
  | zero =>
    intro s t hit hreal _
    have hst : s = t := by simpa [iterExp] using hit
    subst hst
    cases s with
    | mk d ex =>
      have hd : isMacroFile d.file_name = false := by simpa [Span.data] using hreal
      cases ex <;> simp [find_span_r_hops, hd]
  | succ M ih =>
    intro s t hit hreal hmac
    have hm : isMacroFile s.data.file_name = true :=
      hmac 0 s (Nat.succ_pos M) rfl
    cases s with
    | mk d ex =>
      cases ex with
      | none => simp [iterExp, Span.expansion] at hit
      | some u =>
        have hit' : iterExp M u = some t := by simpa [iterExp, Span.expansion] using hit
        have hmac' : ∀ m v, m < M → iterExp m u = some v → isMacroFile v.data.file_name = true := by
          intro m v hlt hexp
          exact hmac (m + 1) v (Nat.succ_lt_succ hlt)
            (by simpa [iterExp, Span.expansion] using hexp)
        have := ih u t hit' hreal hmac'
        have hm' : isMacroFile d.file_name = true := by simpa [Span.data] using hm
        simp [find_span_r_hops, hm', this]

/-- C6: for every span whose file indicator is a real
(non-macro-expansion) path, span resolution is the identity — the span
used for anchoring is the input span unchanged — and no expansion hops
are performed. -/
theorem c6_real_file_resolution_identity (s : Span)
    (h : isMacroFile s.data.file_name = false) :
    resolve_span s = some s ∧ resolve_span_hops s = (some s, 0) := by
  constructor <;> simp [resolve_span, resolve_span_hops, h]

/-- Witness for C6 at the concrete real-file span `spanReal`. -/
theorem c6_witness :
    isMacroFile spanReal.data.file_name = false ∧
      (resolve_span spanReal = some spanReal ∧
        resolve_span_hops spanReal = (some spanReal, 0)) :=
  ⟨by decide, c6_real_file_resolution_identity spanReal (by decide)⟩

/-- C4 (amended): for a macro-origin span whose expansion chain stays
inside macro files for `N` hops and then reaches a real-file span `t`,
resolution performs exactly `N` hops and returns `t`; if instead the
whole chain stays inside macro files, resolution is unresolved
(`none`) and the span loop silently skips that span, continuing with
the remaining sibling spans unchanged (the source logs nothing for the
dropped span). -/
theorem c4_macro_chain_resolution (s : Span)
    (hm : isMacroFile s.data.file_name = true) :
    (∀ N t, iterExp N s = some t →
        isMacroFile t.data.file_name = false →
        (∀ m u, m < N → iterExp m s = some u → isMacroFile u.data.file_name = true) →
        resolve_span_hops s = (some t, N) ∧ resolve_span s = some t) ∧
    ((∀ n u, iterExp n s = some u → isMacroFile u.data.file_name = true) →
        resolve_span s = none ∧
        ∀ env info base st rest,
          processSpans env info base (s :: rest) st = processSpans env info base rest st) := by
  constructor
  · intro N t hit hreal hmac
    have h1 : find_span_r_hops s = (some t, N) :=
      find_span_r_hops_of_chain N s t hit hreal hmac
    have h2 : find_span_r s = some t := by
      have := find_span_r_hops_fst s
      rw [h1] at this
      exact this.symm
    exact ⟨by simp [resolve_span_hops, hm, h1], by simp [resolve_span, hm, h2]⟩
  · intro hdead
    have h1 : find_span_r s = none := find_span_r_none_of_all_macro s hdead
    have h2 : resolve_span s = none := by simp [resolve_span, hm, h1]
    refine ⟨h2, ?_⟩
    intro env info base st rest
    simp [processSpans, processSpan, h2, Bind.bind, Except.bind]

/-- Witness for C4: the one-hop chain `spanMac1` resolves to `spanReal`
with exactly one hop, and the dead chain `spanDead` is unresolved and
skipped without touching the state. -/
theorem c4_witness :
    (resolve_span_hops spanMac1 = (some spanReal, 1) ∧
      resolve_span spanMac1 = some spanReal) ∧
    (resolve_span spanDead = none ∧
      processSpans env0 diagMacro "red" [spanDead] st0 =
        processSpans env0 diagMacro "red" [] st0) := by
  have h1 := (c4_macro_chain_resolution spanMac1 (by decide)).1 1 spanReal
    (by rfl) (by decide)
    (by
      intro m u hm hu
      have hm0 : m = 0 := by omega
      subst hm0
      have : spanMac1 = u := by simpa [iterExp] using hu
      subst this
      decide)
  have h2 := (c4_macro_chain_resolution spanDead (by decide)).2
    (by
      intro n u hn
      cases n with
      | zero =>
        have : spanDead = u := by simpa [iterExp] using hn
        subst this
        decide
      | succ k => simp [iterExp, spanDead, Span.expansion] at hn)
  exact ⟨h1, h2.1, h2.2 env0 diagMacro "red" st0 []⟩

/-- Counterexample for C4 as stated: the dead-chain macro span of
`diagMacro` is dropped, but no note is logged — the run's only event is
the phantom for the sibling span, and no `printLog` event is emitted at
all (the claim asserts the drop is accompanied by a logged note). -/
theorem c4_counterexample :
    resolve_span spanDead = none ∧
    add_error_phantoms env0 cfg0 "main.rs" diagMacro st0 =
      .ok ⟨true, [("main.rs", "invalid", ((1, 2), (1, 7)))],
        [.phantom "main.rs" ((1, 2), (1, 7)) ⟨"rust-error", "error", "sib", "", "red"⟩],
        none⟩ ∧
    ([Event.phantom "main.rs" ((1, 2), (1, 7)) ⟨"rust-error", "error", "sib", "", "red"⟩].all
      (fun e => match e with
        | .phantom _ _ _ => true
        | .printLog _ => false)) = true := by
  refine ⟨by rfl, by rfl, by decide⟩

/-- The region insertion performed by one `add_message` call. -/
theorem add_message_regions (env : Env) (info : Diag) (b v : String) (r : Region)
    (m e : String) (st : St) :
    (add_message env info b v r m e st).regionsByView =
      st.regionsByView ++ [(v, if info.level == "error" then "invalid" else "info", r)] := rfl

/-- The region insertion performed by one `add_primary_message` call. -/
theorem add_primary_message_regions (env : Env) (info : Diag) (b v : String) (r : Region)
    (m : String) (st : St) :
    (add_primary_message env info b v r m st).regionsByView =
      st.regionsByView ++ [(v, if info.level == "error" then "invalid" else "info", r)] := rfl

/-- Every region a non-raising open-file span adds is `spanRegion` of
the resolved span's data, appended `n ≥ 1` times. -/
theorem processSpan_open_regions (env : Env) (info : Diag) (base : String)
    (sp rs : Span) (st : St) (view : String)
    (hres : resolve_span sp = some rs)
    (hopen : find_open_file env rs.data.file_name = some view)
    (hguard : (!truthyS rs.data.label && !sp.data.is_primary) = false) :
    ∃ n st', 0 < n ∧ processSpan env info base sp st = .ok st' ∧
      st'.regionsByView = st.regionsByView ++
        List.replicate n (view, (if info.level == "error" then "invalid" else "info"),
          spanRegion rs.data) := by
  cases hl : truthyS rs.data.label with
  | true =>
    cases hp : sp.data.is_primary with
    | true =>
      cases hs : truthyS rs.data.suggested_replacement with
      | true =>
        simp only [processSpan, hres, hopen, hl, hp, hs]
        refine ⟨3, _, by omega, rfl, ?_⟩
        simp [add_message_regions, add_primary_message_regions, List.replicate]
      | false =>
        simp only [processSpan, hres, hopen, hl, hp, hs]
        refine ⟨2, _, by omega, rfl, ?_⟩
        simp [add_message_regions, add_primary_message_regions, List.replicate]
    | false =>
      cases hs : truthyS rs.data.suggested_replacement with
      | true =>
        simp only [processSpan, hres, hopen, hl, hp, hs]
        refine ⟨2, _, by omega, rfl, ?_⟩
        simp [add_message_regions, add_primary_message_regions, List.replicate]
      | false =>
        simp only [processSpan, hres, hopen, hl, hp, hs]
        refine ⟨1, _, by omega, rfl, ?_⟩
        simp [add_message_regions, add_primary_message_regions, List.replicate]
  | false =>
    have hp : sp.data.is_primary = true := by
      revert hguard
      cases sp.data.is_primary <;> simp [hl]
    cases hs : truthyS rs.data.suggested_replacement with
    | true =>
      simp only [processSpan, hres, hopen, hl, hp, hs]
      refine ⟨2, _, by omega, rfl, ?_⟩
      simp [add_message_regions, add_primary_message_regions, List.replicate]
    | false =>
      simp only [processSpan, hres, hopen, hl, hp, hs]
      refine ⟨1, _, by omega, rfl, ?_⟩
      simp [add_message_regions, add_primary_message_regions, List.replicate]

/-- C5: every highlight region recorded for a resolved span is obtained
by subtracting exactly 1 from each of its 1-based `line_start`,
`column_start`, `line_end` and `column_end`, independently. -/
theorem c5_region_translation (env : Env) (info : Diag) (base : String)
    (sp rs : Span) (st : St) (view : String)
    (hres : resolve_span sp = some rs)
    (hopen : find_open_file env rs.data.file_name = some view)
    (hok : truthyS rs.data.label = true ∨ sp.data.is_primary = true) :
    ∃ st', processSpan env info base sp st = .ok st' ∧
      st.regionsByView.length < st'.regionsByView.length ∧
      ∀ e ∈ st'.regionsByView.drop st.regionsByView.length,
        e.2.2 = ((rs.data.line_start - 1, rs.data.column_start - 1),
                 (rs.data.line_end - 1, rs.data.column_end - 1)) := by
  have hguard : (!truthyS rs.data.label && !sp.data.is_primary) = false := by
    rcases hok with h | h <;> simp [h]
  obtain ⟨n, st', hn, hrun, hreg⟩ :=
    processSpan_open_regions env info base sp rs st view hres hopen hguard
  refine ⟨st', hrun, ?_, ?_⟩
  · simp only [hreg, List.length_append, List.length_replicate]
    omega
  · intro e he
    rw [hreg, List.drop_left] at he
    have := List.eq_of_mem_replicate he
    subst this
    simp [spanRegion]

/-- Witness for C5 at the spec's example span
`{line_start: 5, column_start: 1, line_end: 5, column_end: 10}`
(which is `spanReal`): the recorded region starts at row 4, column 0
and ends at row 4, column 9. -/
theorem c5_witness :
    ∃ st', processSpan env0 diagErr "red" spanReal st0 = .ok st' ∧
      st0.regionsByView.length < st'.regionsByView.length ∧
      ∀ e ∈ st'.regionsByView.drop st0.regionsByView.length,
        e.2.2 = ((4, 0), (4, 9)) := by
  have h := c5_region_translation env0 diagErr "red" spanReal spanReal st0 "main.rs"
    (by rfl) (by rfl) (Or.inl (by rfl))
  simpa [spanReal, Span.data] using h

/-- C1 (amended): for a span whose resolved owning file is open, the
`Unexpected span with no label` logic error is raised if and only if
the span's label is falsy and the span is not primary — whether the
span carries a suggested replacement is irrelevant. -/
theorem c1_raise_iff (env : Env) (info : Diag) (base : String) (sp rs : Span)
    (st : St) (view : String)
    (hres : resolve_span sp = some rs)
    (hopen : find_open_file env rs.data.file_name = some view) :
    processSpan env info base sp st = .error "Unexpected span with no label" ↔
      (truthyS rs.data.label = false ∧ sp.data.is_primary = false) := by
  cases hl : truthyS rs.data.label with
  | true => simp [processSpan, hres, hopen, hl]
  | false =>
    cases hp : sp.data.is_primary with
    | true => simp [processSpan, hres, hopen, hl, hp]
    | false => simp [processSpan, hres, hopen, hl, hp]

/-- Witness for C1 at `spanNoLbl` (no label, not primary, owning file
open): processing raises the logic error. -/
theorem c1_witness :
    processSpan env0 diagErr "red" spanNoLbl st0 = .error "Unexpected span with no label" :=
  (c1_raise_iff env0 diagErr "red" spanNoLbl spanNoLbl st0 "main.rs"
    (by rfl) (by rfl)).mpr ⟨rfl, rfl⟩

/-- Counterexample for C1 as stated: `spanSugg` carries a suggested
replacement, yet the aggregator still raises the logic error on it
(the claim asserts a span carrying a suggested replacement is processed
without raising). -/
theorem c1_counterexample :
    spanSugg.data.suggested_replacement = some "fix" ∧
    add_error_phantoms env0 cfg0 "main.rs" diagSugg st0 =
      .error "Unexpected span with no label" :=
  ⟨rfl, rfl⟩

/-- `add_message` does not touch `parent_info`. -/
theorem add_message_parent (env : Env) (info : Diag) (b v : String) (r : Region)
    (m e : String) (st : St) :
    (add_message env info b v r m e st).parent = st.parent := rfl

/-- `add_primary_message` sets the `parent_info` anchor. -/
theorem add_primary_message_parent (env : Env) (info : Diag) (b v : String) (r : Region)
    (m : String) (st : St) :
    (add_primary_message env info b v r m st).parent = some (v, r) := rfl

/-- `report_silent_message` does not touch `parent_info`. -/
theorem report_silent_message_parent (info : Diag) (p m : String) (st : St) :
    (report_silent_message info p m st).parent = st.parent := rfl

/-- The zero-span branch never clears a set `parent_info` anchor. -/
theorem spanlessStep_parent (env : Env) (info : Diag) (b t : String) (st : St)
    (h : st.parent ≠ none) : (spanlessStep env info b t st).parent ≠ none := by
  cases hp : st.parent with
  | none => exact absurd hp h
  | some a =>
    obtain ⟨pv, pr⟩ := a
    simp [spanlessStep, hp, add_primary_message_parent]

/-- Processing one span never clears a set `parent_info` anchor. -/
theorem processSpan_parent (env : Env) (info : Diag) (base : String) (s : Span)
    (st st' : St) (h : processSpan env info base s st = .ok st')
    (hp : st.parent ≠ none) : st'.parent ≠ none := by
  unfold processSpan at h
  cases hres : resolve_span s with
  | none =>
    rw [hres] at h
    dsimp only at h
    injection h with h
    subst h
    exact hp
  | some rs =>
    rw [hres] at h
    dsimp only at h
    cases hopen : find_open_file env rs.data.file_name with
    | none =>
      rw [hopen] at h
      dsimp only at h
      repeat' split at h
      all_goals
        injection h with h
        subst h
        simp [add_message_parent, add_primary_message_parent,
          report_silent_message_parent, hp]
    | some view =>
      rw [hopen] at h
      dsimp only at h
      repeat' split at h
      all_goals
        first
        | (injection h with h; subst h;
           simp [add_message_parent, add_primary_message_parent,
             report_silent_message_parent, hp])
        | exact absurd h (by simp)

/-- The span loop never clears a set `parent_info` anchor. -/
theorem processSpans_parent (env : Env) (info : Diag) (base : String) :
    ∀ (spans : List Span) (st st' : St),
      processSpans env info base spans st = .ok st' → st.parent ≠ none → st'.parent ≠ none
  | [], st, st', h, hp => by
    simp only [processSpans, Except.ok.injEq] at h
    subst h
    exact hp
  | s :: rest, st, st', h, hp => by
    simp only [processSpans] at h
    cases h1 : processSpan env info base s st with
    | error e => rw [h1] at h; exact absurd h (by simp [Bind.bind, Except.bind])
    | ok st1 =>
      rw [h1] at h
      simp only [Bind.bind, Except.bind] at h
      exact processSpans_parent env info base rest st1 st' h
        (processSpan_parent env info base s st st1 h1 hp)

mutual

/-- `add_error_phantoms` never clears a set `parent_info` anchor. -/
theorem add_error_phantoms_parent (env : Env) (settings : Settings) (tsrc : String) :
    ∀ (info : Diag) (st st' : St),
      add_error_phantoms env settings tsrc info st = .ok st' →
      st.parent ≠ none → st'.parent ≠ none
  | .mk level message code spans children rendered, st, st', h, hp => by
    rw [add_error_phantoms] at h
    split at h
    · simp only [Except.ok.injEq] at h
      subst h
      exact hp
    · dsimp only at h
      cases h2 : processSpans env (.mk level message code spans children rendered)
          (if (level == "error") = true then settings.error_color else settings.warning_color)
          spans
          (if spans.isEmpty = true then
            spanlessStep env (.mk level message code spans children rendered)
              (if (level == "error") = true then settings.error_color else settings.warning_color)
              tsrc st
          else st) with
      | error e =>
        rw [h2] at h
        exact absurd h (by simp [Bind.bind, Except.bind])
      | ok st2 =>
        rw [h2] at h
        simp only [Bind.bind, Except.bind] at h
        have hst1 : (if spans.isEmpty = true then
            spanlessStep env (.mk level message code spans children rendered)
              (if (level == "error") = true then settings.error_color else settings.warning_color)
              tsrc st
          else st).parent ≠ none := by
          split
          · exact spanlessStep_parent _ _ _ _ _ hp
          · exact hp
        have hst2 : st2.parent ≠ none :=
          processSpans_parent _ _ _ _ _ _ h2 hst1
        exact processChildren_parent env settings tsrc children st2 st' h hst2

/-- The children loop never clears a set `parent_info` anchor. -/
theorem processChildren_parent (env : Env) (settings : Settings) (tsrc : String) :
    ∀ (cs : List Diag) (st st' : St),
      processChildren env settings tsrc cs st = .ok st' →
      st.parent ≠ none → st'.parent ≠ none
  | [], st, st', h, hp => by
    simp only [processChildren, Except.ok.injEq] at h
    subst h
    exact hp
  | c :: rest, st, st', h, hp => by
    simp only [processChildren] at h
    cases h1 : add_error_phantoms env settings tsrc c st with
    | error e => rw [h1] at h; exact absurd h (by simp [Bind.bind, Except.bind])
    | ok st1 =>
      rw [h1] at h
      simp only [Bind.bind, Except.bind] at h
      exact processChildren_parent env settings tsrc rest st1 st' h
        (add_error_phantoms_parent env settings tsrc c st st1 h1 hp)

end

mutual

/-- With a set `parent_info` anchor, the whole subtree is processed
identically whether or not warnings are hidden (the severity filter can
never fire below an anchored record). -/
theorem add_error_phantoms_hide_indep (env : Env) (tsrc ec wc : String) (it : Bool) :
    ∀ (info : Diag) (b₁ b₂ : Bool) (st : St), st.parent ≠ none →
      add_error_phantoms env ⟨b₁, ec, wc, it⟩ tsrc info st =
        add_error_phantoms env ⟨b₂, ec, wc, it⟩ tsrc info st
  | .mk level message code spans children rendered, b₁, b₂, st, hp => by
    rw [add_error_phantoms, add_error_phantoms]
    have hguard : (st.parent == none) = false := by
      cases hq : st.parent with
      | none => exact absurd hq hp
      | some a => rfl
    simp only [hguard, Bool.and_false, if_neg, Bool.false_eq_true, not_false_eq_true,
      reduceIte]
    have hst1 : (if spans.isEmpty = true then
        spanlessStep env (.mk level message code spans children rendered)
          (if (level == "error") = true then ec else wc) tsrc st
      else st).parent ≠ none := by
      split
      · exact spanlessStep_parent _ _ _ _ _ hp
      · exact hp
    cases h2 : processSpans env (.mk level message code spans children rendered)
        (if (level == "error") = true then ec else wc) spans
        (if spans.isEmpty = true then
          spanlessStep env (.mk level message code spans children rendered)
            (if (level == "error") = true then ec else wc) tsrc st
        else st) with
    | error e => simp [h2, Bind.bind, Except.bind]
    | ok st2 =>
      simp only [h2, Bind.bind, Except.bind]
      exact processChildren_hide_indep env tsrc ec wc it children b₁ b₂ st2
        (processSpans_parent _ _ _ _ _ _ h2 hst1)

/-- Children-loop version of `add_error_phantoms_hide_indep`. -/
theorem processChildren_hide_indep (env : Env) (tsrc ec wc : String) (it : Bool) :
    ∀ (cs : List Diag) (b₁ b₂ : Bool) (st : St), st.parent ≠ none →
      processChildren env ⟨b₁, ec, wc, it⟩ tsrc cs st =
        processChildren env ⟨b₂, ec, wc, it⟩ tsrc cs st
  | [], b₁, b₂, st, hp => rfl
  | c :: rest, b₁, b₂, st, hp => by
    simp only [processChildren]
    rw [add_error_phantoms_hide_indep env tsrc ec wc it c b₁ b₂ st hp]
    cases h1 : add_error_phantoms env ⟨b₂, ec, wc, it⟩ tsrc c st with
    | error e => simp [Bind.bind, Except.bind]
    | ok st1 =>
      simp only [Bind.bind, Except.bind]
      exact processChildren_hide_indep env tsrc ec wc it rest b₁ b₂ st1
        (add_error_phantoms_parent env _ tsrc c st st1 h1 hp)

end

/-- C2 (amended): with hide-warnings enabled a top-level (no parent
context) non-error record with no children produces zero annotations
(the state is returned unchanged); and any record processed with a
non-empty parent context — in particular every child of a record whose
primary message was anchored — is immune to the severity filter: its
subtree is processed identically whether or not warnings are hidden.
Children of an error whose primary message was never anchored (so the
parent context is still empty) are, however, filtered like top-level
records. -/
theorem c2_severity_filter (env : Env) (tsrc ec wc : String) (it : Bool)
    (info : Diag) (st : St) (b₁ b₂ : Bool) :
    (st.parent = none → info.level ≠ "error" → b₁ = true → info.children = [] →
      add_error_phantoms env ⟨b₁, ec, wc, it⟩ tsrc info st = .ok st) ∧
    (st.parent ≠ none →
      add_error_phantoms env ⟨b₁, ec, wc, it⟩ tsrc info st =
        add_error_phantoms env ⟨b₂, ec, wc, it⟩ tsrc info st) := by
  constructor
  · intro hpar hlev hb _hch
    cases info with
    | mk level message code spans children rendered =>
      rw [add_error_phantoms]
      have h1 : (level != "error") = true := by
        simp only [Diag.level] at hlev
        simpa using hlev
      have h2 : (st.parent == none) = true := by simp [hpar]
      subst hb
      simp [h1, h2]
  · intro hpar
    exact add_error_phantoms_hide_indep env tsrc ec wc it info b₁ b₂ st hpar

/-- Witness for C2: with hide-warnings on, the childless top-level
warning `diagWarn` leaves the state unchanged, and processing it from
an anchored state is independent of the hide-warnings flag. -/
theorem c2_witness :
    add_error_phantoms env0 ⟨true, "red", "yellow", false⟩ "main.rs" diagWarn st0 = .ok st0 ∧
    add_error_phantoms env0 ⟨true, "red", "yellow", false⟩ "main.rs" diagWarn stAnchored =
      add_error_phantoms env0 ⟨false, "red", "yellow", false⟩ "main.rs" diagWarn stAnchored := by
  constructor
  · exact (c2_severity_filter env0 "main.rs" "red" "yellow" false diagWarn st0 true false).1
      rfl (by decide) rfl rfl
  · exact (c2_severity_filter env0 "main.rs" "red" "yellow" false diagWarn stAnchored
      true false).2 (by decide)

/-- Counterexample for C2 as stated: with hide-warnings enabled, the
top-level error `diagHidden` (whose only span lies in the unopened file
`un.rs`, so its primary message is only silently logged and no anchor is
set) has a warning child with message `w`, and that child IS filtered
out by the severity filter: the run's events contain no trace of `w`. -/
theorem c2_counterexample :
    diagHidden.children.map Diag.message = ["w"] ∧
    add_error_phantoms env0 cfgHide "main.rs" diagHidden st0 =
      .ok ⟨false, [], [.printLog "rust: un.rs", .printLog "[error]: boom"], none⟩ ∧
    ([Event.printLog "rust: un.rs", Event.printLog "[error]: boom"].all
      (fun e => match e with
        | .phantom _ _ c => charsContain c.msg.data "w".data == false
        | .printLog l => charsContain l.data "w".data == false)) = true := by
  refine ⟨rfl, by rfl, by decide⟩

/-- C7: within a single check run started with the found flag clear,
target invocations are processed in order (the fetched list is a prefix
of the target list), and once the run-scoped found flag is set after
some target, appending further targets changes nothing: they are never
fetched or processed. -/
theorem c7_stop_after_found (env : Env) (cfg : Settings) (fetch : List String → List Diag) :
    ∀ (xs ys : List TargetEntry) (st : St) (fetched : List TargetEntry) (st' : St),
      st.thisViewFound = false →
      checkLoop env cfg fetch xs st = .ok (fetched, st') →
      fetched = xs.take fetched.length ∧
      (st'.thisViewFound = true →
        checkLoop env cfg fetch (xs ++ ys) st = .ok (fetched, st'))
  | [], ys, st, fetched, st', h0, h => by
    simp only [checkLoop, Except.ok.injEq, Prod.mk.injEq] at h
    obtain ⟨h1, h2⟩ := h
    subst h1
    subst h2
    refine ⟨rfl, ?_⟩
    intro hf
    rw [h0] at hf
    exact absurd hf (by simp)
  | x :: rest, ys, st, fetched, st', h0, h => by
    simp only [checkLoop] at h
    cases hp : processInfos env cfg x.src (fetch (rustc_args cfg.include_tests x.args)) st with
    | error e =>
      rw [hp] at h
      exact absurd h (by simp [Bind.bind, Except.bind])
    | ok st1 =>
      rw [hp] at h
      simp only [Bind.bind, Except.bind] at h
      cases hf1 : st1.thisViewFound with
      | true =>
        rw [hf1] at h
        simp only [if_true, Except.ok.injEq, Prod.mk.injEq] at h
        obtain ⟨h1, h2⟩ := h
        subst h1
        subst h2
        refine ⟨rfl, ?_⟩
        intro _
        simp only [List.cons_append, checkLoop, hp, Bind.bind, Except.bind, hf1, if_true]
      | false =>
        rw [hf1] at h
        simp only [if_false, Bool.false_eq_true] at h
        cases hr : checkLoop env cfg fetch rest st1 with
        | error e =>
          rw [hr] at h
          exact absurd h (by simp)
        | ok pr =>
          obtain ⟨f2, st2⟩ := pr
          rw [hr] at h
          simp only [Except.ok.injEq, Prod.mk.injEq] at h
          obtain ⟨h1, h2⟩ := h
          subst h1
          subst h2
          have ih := c7_stop_after_found env cfg fetch rest ys st1 f2 st2 hf1 hr
          refine ⟨?_, ?_⟩
          · simp only [List.length_cons, List.take_succ_cons]
            exact congrArg (x :: ·) ih.1
          · intro hfound
            simp only [List.cons_append, checkLoop, hp, Bind.bind, Except.bind, hf1,
              if_false, Bool.false_eq_true, List.append_eq, ih.2 hfound]


/-- Witness for C7: with a fetch that anchors a message in the
triggering view, the run over `[tgt1, tgt2]` fetches only `tgt1`. -/
theorem c7_witness :
    checkLoop env0 cfg0 fetchW ([tgt1] ++ [tgt2]) st0 =
      .ok ([tgt1], ⟨true, [("main.rs", "invalid", ((1, 2), (1, 7)))],
        [.phantom "main.rs" ((1, 2), (1, 7)) ⟨"rust-error", "error", "sib", "", "red"⟩],
        none⟩) :=
  (c7_stop_after_found env0 cfg0 fetchW [tgt1] [tgt2] st0 [tgt1]
    ⟨true, [("main.rs", "invalid", ((1, 2), (1, 7)))],
      [.phantom "main.rs" ((1, 2), (1, 7)) ⟨"rust-error", "error", "sib", "", "red"⟩],
      none⟩ rfl (by rfl)).2 rfl

/-- The `run_cargo` parse loop equals filtering the record lines and
parsing each of them in order. -/
theorem parse_lines_eq_filter_mapM {α : Type} (jloads : String → Except String α) :
    ∀ (lines : List String),
      parse_lines jloads lines = (lines.filter (fun l => isRecordLine l)).mapM jloads
  | [] => rfl
  | l :: ls => by
    by_cases h : isRecordLine l = true
    · rw [parse_lines, if_pos h, List.filter_cons_of_pos h, List.mapM_cons,
        parse_lines_eq_filter_mapM jloads ls]
      rfl
    · rw [parse_lines, if_neg h, List.filter_cons_of_neg (by simpa using h)]
      exact parse_lines_eq_filter_mapM jloads ls

/-- C8: parsing proceeds line by line, keeping exactly the lines that
are syntactically record lines (non-empty, starting with `{`) — the
result is the per-line parse of precisely those lines, and an output
consisting only of informational lines parses to the empty record list
without error. -/
theorem c8_line_filter {α : Type} (jloads : String → Except String α) (lines : List String) :
    parse_lines jloads lines = (lines.filter (fun l => isRecordLine l)).mapM jloads ∧
    ((∀ l ∈ lines, isRecordLine l = false) → parse_lines jloads lines = .ok []) := by
  refine ⟨parse_lines_eq_filter_mapM jloads lines, ?_⟩
  intro hall
  rw [parse_lines_eq_filter_mapM jloads lines]
  have hnil : lines.filter (fun l => isRecordLine l) = [] := by
    rw [List.filter_eq_nil_iff]
    intro a ha
    simp [hall a ha]
  rw [hnil]
  rfl

/-- Witness for C8: cargo progress/informational output yields an empty
record list without error. -/
theorem c8_witness :
    parse_lines jloadsW ["   Compiling foo", "", "warning: unused"] = .ok [] :=
  (c8_line_filter jloadsW ["   Compiling foo", "", "warning: unused"]).2 (by decide)

/-- C9: when the parse produces no records and the exit status is
non-zero, the fetch logs the failure and returns the empty record list;
when records were parsed they are returned with no failure log,
regardless of the exit status. -/
theorem c9_silent_failure {α : Type} (jloads : String → Except String α)
    (output : String) (rc : Int) (r : List α)
    (h : parse_lines jloads (pySplitLines output) = .ok r) :
    ((r = [] ∧ rc ≠ 0) → run_cargo_parse jloads output rc = .ok ([], true)) ∧
    (r ≠ [] → run_cargo_parse jloads output rc = .ok (r, false)) := by
  constructor
  · rintro ⟨hr, hrc⟩
    subst hr
    simp [run_cargo_parse, h, Bind.bind, Except.bind, hrc]
  · intro hr
    simp [run_cargo_parse, h, Bind.bind, Except.bind, hr]

/-- Witness for C9 on a failing run with no records and a failing run
with one record. -/
theorem c9_witness :
    run_cargo_parse jloadsW "error: junk" 101 = .ok ([], true) ∧
    run_cargo_parse jloadsW "{0}" 101 = .ok (["{0}"], false) := by
  constructor
  · exact (c9_silent_failure jloadsW "error: junk" 101 [] (by rfl)).1 ⟨rfl, by decide⟩
  · exact (c9_silent_failure jloadsW "{0}" 101 ["{0}"] (by rfl)).2 (by decide)

/-- C10: manual-override matching compares `<root>/src` as a plain
string prefix, so the sibling-directory file `/p/srcextra/f.rs` (which
is not under `/p/src/`) is treated as inside project `/p` and receives
its `_default` target. -/
theorem c10_manual_config_string_prefix :
    _targets_manual_config [projX] "/p/srcextra/f.rs" = some [("", "--bin x")] ∧
    pyStartswith "/p/srcextra/f.rs" (pjoin "/p" "src") = true ∧
    pyStartswith "/p/srcextra/f.rs" "/p/src/" = false :=
  ⟨rfl, by decide, by decide⟩

/-- A level scan that found nothing collected nothing and set no
kind flags. -/
theorem scanLevel_not_found (p : List String) :
    ∀ (tgts : List Target) (r : List TargetArgs) (fb fl : Bool),
      scanLevel tgts p = .ok (r, false, fb, fl) → r = [] ∧ fb = false ∧ fl = false
  | [], r, fb, fl, h => by
    simp only [scanLevel, Except.ok.injEq, Prod.mk.injEq] at h
    obtain ⟨h1, _, h3, h4⟩ := h
    exact ⟨h1.symm, h3.symm, h4.symm⟩
  | t :: ts, r, fb, fl, h => by
    rw [scanLevel] at h
    split at h
    · cases ha : _target_to_args t with
      | error e =>
        rw [ha] at h
        exact absurd h (by simp)
      | ok o =>
        cases o with
        | none =>
          rw [ha] at h
          exact scanLevel_not_found p ts r fb fl h
        | some args =>
          rw [ha] at h
          cases hrec : scanLevel ts p with
          | error e =>
            rw [hrec] at h
            exact absurd h (by simp [Bind.bind, Except.bind])
          | ok q =>
            obtain ⟨r', f', fb', fl'⟩ := q
            rw [hrec] at h
            simp [Bind.bind, Except.bind] at h
    · exact scanLevel_not_found p ts r fb fl h

/-- Stepping the start of the ancestor walk commutes with the level
index. -/
theorem levelDir_dropLast (p : List String) :
    ∀ (k : Nat), levelDir p.dropLast k = levelDir p (k + 1)
  | 0 => rfl
  | k + 1 => by
    rw [levelDir, levelDir_dropLast p k]
    rfl

/-- The `while` loop of `_targets_longest_matches` stops at the first
(deepest) ancestor level whose scan finds targets and returns exactly
that level's scan; all deeper levels scanned before it found nothing,
and if no level finds anything the result is empty at the root. -/
theorem longestLoop_charac (tgts : List Target) :
    ∀ (p : List String) (res : List TargetArgs) (fb fl : Bool),
      longestLoop tgts p = .ok (res, fb, fl) →
      ∃ k found,
        (∀ j, j < k → scanLevel tgts (levelDir p j) = .ok ([], false, false, false)) ∧
        scanLevel tgts (levelDir p k) = .ok (res, found, fb, fl) ∧
        (found = true ∨ (levelDir p k = [] ∧ res = []))
  | p, res, fb, fl, h => by
    rw [longestLoop] at h
    cases hs : scanLevel tgts p with
    | error e =>
      rw [hs] at h
      exact absurd h (by simp [Bind.bind, Except.bind])
    | ok q =>
      obtain ⟨r0, f0, fb0, fl0⟩ := q
      rw [hs] at h
      simp only [Bind.bind, Except.bind] at h
      cases f0 with
      | true =>
        simp only [if_true, Except.ok.injEq, Prod.mk.injEq] at h
        obtain ⟨h1, h2, h3⟩ := h
        subst h1
        subst h2
        subst h3
        exact ⟨0, true, by omega, hs, Or.inl rfl⟩
      | false =>
        obtain ⟨hr0, hfb0, hfl0⟩ := scanLevel_not_found p tgts r0 fb0 fl0 hs
        subst hr0
        subst hfb0
        subst hfl0
        by_cases hp : p = []
        · subst hp
          simp only [if_false, if_pos rfl, Except.ok.injEq, Prod.mk.injEq,
            Bool.false_eq_true, reduceIte] at h
          obtain ⟨h1, h2, h3⟩ := h
          subst h1
          subst h2
          subst h3
          exact ⟨0, false, by omega, hs, Or.inr ⟨rfl, rfl⟩⟩
        · rw [if_neg (by simp), if_neg hp] at h
          obtain ⟨k, found, hj, hk, hdisj⟩ := longestLoop_charac tgts p.dropLast res fb fl h
          refine ⟨k + 1, found, ?_, ?_, ?_⟩
          · intro j hjk
            cases j with
            | zero => exact hs
            | succ i =>
              rw [← levelDir_dropLast p i]
              exact hj i (by omega)
          · rw [← levelDir_dropLast p k]
            exact hk
          · cases hdisj with
            | inl hf => exact Or.inl hf
            | inr hr =>
              refine Or.inr ⟨?_, hr.2⟩
              rw [← levelDir_dropLast p k]
              exact hr.1
termination_by p => p.length
decreasing_by
  have hl : 0 < p.length := List.length_pos.mpr hp
  simp [List.length_dropLast]
  omega

/-- C3: the nearest-directory resolver walks upward from the file's
directory and its result is exactly the scan of the first (deepest)
level at which any targets are found — nothing is ever collected from
shallower ancestors — and when that level yields both a `--bin` and a
`--lib` invocation, the `--bin` invocations are discarded. -/
theorem c3_nearest_directory (tgts : List Target) (file : List String)
    (res : List TargetArgs)
    (h : _targets_longest_matches tgts file = .ok res) :
    ∃ k lres found fb fl,
      (∀ j, j < k → scanLevel tgts (levelDir file.dropLast j) = .ok ([], false, false, false)) ∧
      scanLevel tgts (levelDir file.dropLast k) = .ok (lres, found, fb, fl) ∧
      (found = true ∨ (levelDir file.dropLast k = [] ∧ lres = [])) ∧
      res = (if fb && fl then lres.filter (fun x => !(pyStartswith x.2 "--bin")) else lres) := by
  unfold _targets_longest_matches at h
  cases hll : longestLoop tgts file.dropLast with
  | error e =>
    rw [hll] at h
    exact absurd h (by simp [Bind.bind, Except.bind])
  | ok q =>
    obtain ⟨lres0, fb, fl⟩ := q
    rw [hll] at h
    simp only [Bind.bind, Except.bind, Except.ok.injEq] at h
    obtain ⟨k, found, hj, hk, hdisj⟩ := longestLoop_charac tgts file.dropLast lres0 fb fl hll
    exact ⟨k, lres0, found, fb, fl, hj, hk, hdisj, h.symm⟩

/-- Witness for C3 at the spec's example: a bin and a lib target both
in `p/src`, queried file `p/src/other.rs` — the result keeps only the
lib invocation. -/
theorem c3_witness :
    ∃ k lres found fb fl,
      (∀ j, j < k → scanLevel [tgtBin, tgtLib]
        (levelDir (["p", "src", "other.rs"] : List String).dropLast j) =
          .ok ([], false, false, false)) ∧
      scanLevel [tgtBin, tgtLib]
        (levelDir (["p", "src", "other.rs"] : List String).dropLast k) =
          .ok (lres, found, fb, fl) ∧
      (found = true ∨
        (levelDir (["p", "src", "other.rs"] : List String).dropLast k = [] ∧ lres = [])) ∧
      [(["p", "src", "helper.rs"], "--lib")] =
        (if fb && fl then lres.filter (fun x => !(pyStartswith x.2 "--bin")) else lres) :=
  c3_nearest_directory [tgtBin, tgtLib] ["p", "src", "other.rs"]
    [(["p", "src", "helper.rs"], "--lib")]
    (by
      unfold _targets_longest_matches
      rw [longestLoop]
      rfl)
